import Mathlib

/-!
Shallow embedding of the TPMS BLE advertisement parser
(custom_components/tpms_ble/tpms_parser/parser.py) and verification of its
specification.  Byte strings are modelled as `List Nat` (each element one
byte), Python floats as exact rationals, Python integers as `Int`/`Nat`,
and the emitted reading of `_update_sensors` as a `Reading` value
(the wall-clock timestamp and device-name side effects are outside the
decoded reading).  Python's native byte order (the `=` prefix of
`struct.unpack`) is modelled as little-endian.
-/

namespace TPMS

/-- The service UUID selecting format B in `supported` / `_start_update`. -/
def uuid27a5 : String := "000027a5-0000-1000-8000-00805f9b34fb"

/-- The service UUID used (with company id 256) for the TomTom format. -/
def uuidFbb0 : String := "0000fbb0-0000-1000-8000-00805f9b34fb"

/-- The normalized reading passed to `_update_sensors`:
pressure (bar), temperature (Celsius), battery (percent), and the optional
alarm flag (`none` when the decoder passes `None`). -/
structure Reading where
  pressure : ℚ
  temperature : ℚ
  battery : ℤ
  alarm : Option Bool
  deriving DecidableEq, Repr

/-- Reinterpret a byte as a signed 8-bit integer (struct format `b`,
and the explicit `temperature -= 2**8` adjustment of `_process_tpms_b`). -/
def toSigned8 (n : Nat) : Int :=
  if n < 128 then (n : Int) else (n : Int) - 256

/-- Reinterpret an unsigned 32-bit value as a signed 32-bit integer
(struct format `i`). -/
def toSigned32 (n : Nat) : Int :=
  if n < 2 ^ 31 then (n : Int) else (n : Int) - 2 ^ 32

/-- Little-endian unsigned 32-bit value from four bytes. -/
def u32le (b0 b1 b2 b3 : Nat) : Nat :=
  b0 + 256 * b1 + 65536 * b2 + 16777216 * b3

/-- Python slice `data[start:start+2]` (never raises; may be short). -/
def pySlice2 (data : List Nat) (start : Nat) : List Nat :=
  (data.drop start).take 2

/-- `int.from_bytes(bs, byteorder="big")`. -/
def fromBytesBig (bs : List Nat) : Nat :=
  bs.foldl (fun a b => 256 * a + b) 0

/-- `int.from_bytes(bs, byteorder="little")`. -/
def fromBytesLittle (bs : List Nat) : Nat :=
  fromBytesBig bs.reverse

/-- Python indexing `data[i]`, which raises `IndexError` out of range;
modelled as `Option`. -/
def pyIndex (data : List Nat) (i : Nat) : Option Nat :=
  data[i]?

/-- Python `round(q)` (banker's rounding, round half to even), on the exact
rational model of the float. -/
def pyRound (q : ℚ) : ℤ :=
  if q - ⌊q⌋ < 1 / 2 then ⌊q⌋
  else if 1 / 2 < q - ⌊q⌋ then ⌊q⌋ + 1
  else if ⌊q⌋ % 2 = 0 then ⌊q⌋ else ⌊q⌋ + 1

/-- Python `round(q, 3)` on the exact rational model. -/
def pyRound3 (q : ℚ) : ℚ :=
  (pyRound (q * 1000) : ℚ) / 1000

/-- `_process_tpms_a`: length must be exactly 16; `unpack("=iib?", data[6:16])`
in native (little-endian) order gives a signed 32-bit pressure, a signed
32-bit temperature, a signed byte battery and a boolean alarm byte. -/
def processTpmsA (data : List Nat) : Option Reading :=
  if data.length = 16 then
    let pressureRaw :=
      toSigned32 (u32le (data.getD 6 0) (data.getD 7 0) (data.getD 8 0) (data.getD 9 0))
    let temperatureRaw :=
      toSigned32 (u32le (data.getD 10 0) (data.getD 11 0) (data.getD 12 0) (data.getD 13 0))
    let battery := toSigned8 (data.getD 14 0)
    let alarm := data.getD 15 0 != 0
    some ⟨(pressureRaw : ℚ) / 100000, (temperatureRaw : ℚ) / 100, battery, some alarm⟩
  else none

/-- `comp_hex[2:4]` of `_process_tpms_b`:
`comp_hex = "".join(re.findall("..", hex(company_id)[2:].zfill(4))[::-1])`,
then hex digits 2..4 of the swapped string, as an integer.  Modelled at the
nibble level for company ids below 2^16 (BLE company identifiers are
16-bit): the swapped string is `h2 h3 h0 h1`, so digits 2..4 are the two
high nibbles `h0 h1` of the identifier. -/
def compHexSwapByte (companyId : Nat) : Nat :=
  (companyId / 4096 % 16) * 16 + (companyId / 256 % 16)

/-- `_process_tpms_b`: `data.hex()` must have exactly 10 characters (5 bytes);
voltage comes from the swapped company-id hex, temperature from the first
byte (signed), pressure from hex digits 2..6 via the psi formula, battery
from the clamped linear voltage map. -/
def processTpmsB (data : List Nat) (companyId : Nat) : Option Reading :=
  if 2 * data.length = 10 then
    let voltage : ℚ := (compHexSwapByte companyId : ℚ) / 10
    let temperature : ℤ := toSigned8 (data.getD 0 0)
    let raw : Nat := data.getD 1 0 * 256 + data.getD 2 0
    let psiPressure : ℚ := ((raw : ℚ) - 145) / 10
    let pressure : ℚ := pyRound3 (psiPressure * (689476 / 10000000))
    let batteryF : ℚ := (voltage - 26 / 10) / (33 / 10 - 26 / 10) * 100
    let battery : ℤ := pyRound (max 0 (min 100 batteryF))
    some ⟨pressure, (temperature : ℚ), battery, none⟩
  else none

/-- One pressure candidate of `_process_tpms_tomtom`:
`raw = int.from_bytes(data[start:start+2], byteorder)`,
`pressure_bar = (raw / divisor) / 100`. -/
def candPressure (data : List Nat) (start : Nat) (bigEndian : Bool) (divisor : Nat) : ℚ :=
  let raw := if bigEndian then fromBytesBig (pySlice2 data start)
             else fromBytesLittle (pySlice2 data start)
  ((raw : ℚ) / divisor) / 100

/-- The `known_configs` table of `_process_tpms_tomtom`: the single non-`None`
entry of the Python list for the given sensor id (offset, big-endian?, divisor). -/
def knownConfig (sensorId : ℤ) : Option (Nat × Bool × Nat) :=
  if sensorId = 1 then some (9, true, 140)
  else if sensorId = 2 then some (8, false, 150)
  else if sensorId = 4 then some (11, false, 140)
  else none

/-- The divisors tried by the auto-detection loop. -/
def divisors : List Nat := [100, 110, 120, 130, 140, 150]

/-- The candidate triples visited by the auto-detection loop of
`_process_tpms_tomtom`, in loop order: `for start_byte in range(6, 16)`
(skipping `start_byte + 2 > len(data)`), `for endian in ['big', 'little']`,
`for divisor in [100, 110, 120, 130, 140, 150]`. -/
def scanCandidates (data : List Nat) : List (Nat × Bool × Nat) :=
  ((List.range' 6 10).filter (fun s => decide (s + 2 ≤ data.length))).flatMap
    (fun s => [true, false].flatMap (fun e => divisors.map (fun d => (s, e, d))))

/-- The realistic-range check `1.5 <= pressure_bar <= 7.0`. -/
def inRange (pb : ℚ) : Bool := decide (3 / 2 ≤ pb ∧ pb ≤ 7)

/-- The candidate score: `1.0` for the typical range `2.0 <= pb <= 5.0`,
else `0.5`. -/
def scoreOf (pb : ℚ) : ℚ := if 2 ≤ pb ∧ pb ≤ 5 then 1 else 1 / 2

/-- The running best candidate of the auto-detection loop
(`best_config`, `best_pressure`, `best_diff`). -/
structure ScanBest where
  config : Nat × Bool × Nat
  pressure : ℚ
  diff : ℚ
  deriving DecidableEq, Repr

/-- One iteration of the auto-detection loop: an in-range candidate replaces
the running best exactly when `diff = 1 - score` is strictly smaller than
`best_diff` (the initial `best_diff = inf` is the `none` state). -/
def scanStep (data : List Nat) (best : Option ScanBest) (c : Nat × Bool × Nat) :
    Option ScanBest :=
  let pb := candPressure data c.1 c.2.1 c.2.2
  if inRange pb then
    let d := 1 - scoreOf pb
    match best with
    | none => some ⟨c, pb, d⟩
    | some b => if d < b.diff then some ⟨c, pb, d⟩ else some b
  else best

/-- The full auto-detection loop of `_process_tpms_tomtom`. -/
def autoScan (data : List Nat) : Option ScanBest :=
  (scanCandidates data).foldl (scanStep data) none

/-- The fallback `int.from_bytes(data[8:10], 'big') / 100 / 100`. -/
def fallbackPressure (data : List Nat) : ℚ :=
  ((fromBytesBig (pySlice2 data 8) : ℚ) / 100) / 100

/-- Pressure resolution of `_process_tpms_tomtom`: the known per-sensor
configuration is used when its decoded pressure is in range; otherwise the
auto-detection loop's best candidate; otherwise the fallback. -/
def tomtomPressure (data : List Nat) (sensorId : ℤ) : ℚ :=
  let fromScan :=
    match autoScan data with
    | some b => b.pressure
    | none => fallbackPressure data
  match knownConfig sensorId with
  | some (s, e, d) =>
    if inRange (candPressure data s e d) then candPressure data s e d else fromScan
  | none => fromScan

/-- The body of the `try:` block of `_process_tpms_tomtom` (after the length
check): the Python operations that can raise — the indexings `data[2]`,
`data[16]`, `data[17]` — are modelled as `Option`; slicing and
`int.from_bytes` are total. -/
def tomtomExtract (data : List Nat) : Option Reading :=
  match pyIndex data 2 with
  | none => none
  | some b2 =>
    let sensorId : ℤ := (b2 : ℤ) - 128 + 1
    let pb := tomtomPressure data sensorId
    let temperature : ℚ := (fromBytesLittle (pySlice2 data 12) : ℚ) / 100
    match pyIndex data 16 with
    | none => none
    | some b16 =>
      let battery : ℤ := if b16 ≤ 100 then (b16 : ℤ) else 100
      match pyIndex data 17 with
      | none => none
      | some b17 => some ⟨pb, temperature, battery, some (b17 != 0)⟩

/-- The all-zero reading emitted by the `except` branch of
`_process_tpms_tomtom`. -/
def placeholderReading : Reading := ⟨0, 0, 0, some false⟩

/-- `_process_tpms_tomtom`: length must be exactly 18; any exception inside
the `try:` block degrades to the placeholder reading. -/
def processTpmsTomtom (data : List Nat) : Option Reading :=
  if data.length = 18 then
    match tomtomExtract data with
    | some r => some r
    | none => some placeholderReading
  else none

/-- `_start_update`: empty manufacturer data is a no-op; the first entry
`(company_id, mfr_data)` is consumed; dispatch order is 27A5 → B, then
company 256 + FBB0 → TomTom, then company 256 → A, else no reading.
The address is used only for device naming, not for the decoded values. -/
def startUpdate (address : String) (serviceUuids : List String)
    (manufacturerData : List (Nat × List Nat)) : Option Reading :=
  match address, manufacturerData with
  | _, [] => none
  | _, (companyId, mfrData) :: _ =>
    if uuid27a5 ∈ serviceUuids then processTpmsB mfrData companyId
    else if companyId = 256 ∧ uuidFbb0 ∈ serviceUuids then processTpmsTomtom mfrData
    else if companyId = 256 then processTpmsA mfrData
    else none

/-- The `supported` method: FBB0 + company 256 present, else 27A5 present,
else company 256 present (`256 in manufacturer_data` is a key lookup over
the whole mapping, guarded by non-emptiness). -/
def supported (serviceUuids : List String)
    (manufacturerData : List (Nat × List Nat)) : Bool :=
  if uuidFbb0 ∈ serviceUuids ∧ manufacturerData ≠ [] ∧
      256 ∈ manufacturerData.map Prod.fst then true
  else if uuid27a5 ∈ serviceUuids then true
  else if manufacturerData ≠ [] ∧ 256 ∈ manufacturerData.map Prod.fst then true
  else false

/-! ### Supporting lemmas -/

theorem getElem?_of_lt {l : List Nat} {i : Nat} (h : i < l.length) :
    l[i]? = some (l.getD i 0) := by
  rw [List.getElem?_eq_getElem h, List.getD_eq_getElem _ _ h]

theorem toSigned8_bounds {n : Nat} (h : n < 256) :
    -128 ≤ toSigned8 n ∧ toSigned8 n ≤ 127 := by
  unfold toSigned8
  split <;> omega

theorem pyRound_nonneg {q : ℚ} (h : 0 ≤ q) : 0 ≤ pyRound q := by
  have h0 : (0 : ℤ) ≤ ⌊q⌋ := Int.floor_nonneg.mpr h
  unfold pyRound
  split_ifs <;> omega

theorem pyRound_le_hundred {q : ℚ} (h : q ≤ 100) : pyRound q ≤ 100 := by
  have h0 : ⌊q⌋ ≤ 100 := by
    have h1 : ⌊q⌋ ≤ ⌊(100 : ℚ)⌋ := Int.floor_mono h
    simpa using h1
  have hfl : (⌊q⌋ : ℚ) ≤ q := Int.floor_le q
  unfold pyRound
  split_ifs with h1 h2 h3
  · exact h0
  · have h99 : (⌊q⌋ : ℚ) < 100 := by linarith
    have : ⌊q⌋ < 100 := by exact_mod_cast h99
    omega
  · exact h0
  · have hhalf : q - ⌊q⌋ = 1 / 2 := le_antisymm (not_lt.mp h2) (not_lt.mp h1)
    have h99 : (⌊q⌋ : ℚ) ≤ 199 / 2 := by linarith
    have : ⌊q⌋ < 100 := by
      by_contra hc
      push_neg at hc
      have : (100 : ℚ) ≤ (⌊q⌋ : ℚ) := by exact_mod_cast hc
      linarith
    omega

theorem batteryClamp_nonneg (x : ℚ) : 0 ≤ max 0 (min 100 x) := le_max_left 0 _

theorem batteryClamp_le (x : ℚ) : max 0 (min 100 x) ≤ 100 :=
  max_le (by norm_num) (min_le_left _ _)

theorem tomtomExtract_battery {data : List Nat} {r : Reading}
    (h : tomtomExtract data = some r) : 0 ≤ r.battery ∧ r.battery ≤ 100 := by
  unfold tomtomExtract at h
  cases h2 : pyIndex data 2 with
  | none => rw [h2] at h; exact absurd h (by simp)
  | some b2 =>
    rw [h2] at h
    cases h16 : pyIndex data 16 with
    | none => rw [h16] at h; exact absurd h (by simp)
    | some b16 =>
      rw [h16] at h
      cases h17 : pyIndex data 17 with
      | none => rw [h17] at h; exact absurd h (by simp)
      | some b17 =>
        rw [h17] at h
        simp only [Option.some.injEq] at h
        subst h
        dsimp only
        split_ifs with hb
        · exact ⟨Int.natCast_nonneg b16, by exact_mod_cast hb⟩
        · exact ⟨by norm_num, le_refl 100⟩

/-! ### Characterization of the auto-detection loop -/

/-- `inRange` as a predicate on candidate triples. -/
def inRangeC (data : List Nat) (c : Nat × Bool × Nat) : Bool :=
  inRange (candPressure data c.1 c.2.1 c.2.2)

/-- The typical-range test (`score = 1.0`) on candidate triples. -/
def typicalC (data : List Nat) (c : Nat × Bool × Nat) : Bool :=
  decide (2 ≤ candPressure data c.1 c.2.1 c.2.2 ∧ candPressure data c.1 c.2.1 c.2.2 ≤ 5)

/-- Modelled from the spec: among the in-range candidates of a scan-order
list, select the first one achieving the best score — the first candidate
in the typical range `[2, 5]` (score 1.0) if any, else the first in-range
candidate (score 0.5). -/
def selectSpec (data : List Nat) (cands : List (Nat × Bool × Nat)) :
    Option (Nat × Bool × Nat) :=
  match (cands.filter (inRangeC data)).find? (typicalC data) with
  | some c => some c
  | none => (cands.filter (inRangeC data)).head?

/-- The candidate list the amended claim describes: offsets 6 through 15,
big before little endian, divisors ascending. -/
def specCandList : List (Nat × Bool × Nat) :=
  (List.range' 6 10).flatMap
    (fun s => [true, false].flatMap (fun e => divisors.map (fun d => (s, e, d))))

/-- The candidate list the original claim asserts: offsets 6 through 14 only. -/
def claimedCandList : List (Nat × Bool × Nat) :=
  (List.range' 6 9).flatMap
    (fun s => [true, false].flatMap (fun e => divisors.map (fun d => (s, e, d))))

theorem find?_filter_eq {α : Type} (L : List α) (q p : α → Bool) :
    (L.filter q).find? p = L.find? (fun a => q a && p a) := by
  induction L with
  | nil => rfl
  | cons c t ih =>
    by_cases hq : q c = true
    · by_cases hp : p c = true <;>
        simp [List.filter_cons, hq, List.find?_cons, hp, ih]
    · simp only [Bool.not_eq_true] at hq
      simp [List.filter_cons, hq, List.find?_cons, ih]

theorem scanStep_diff_zero (data : List Nat) (c : Nat × Bool × Nat) (b : ScanBest)
    (hb : b.diff = 0) : scanStep data (some b) c = some b := by
  unfold scanStep
  dsimp only
  split_ifs with h h2
  · exfalso
    rw [hb] at h2
    revert h2
    unfold scoreOf
    split_ifs <;> norm_num
  · rfl
  · rfl

theorem foldl_scanStep_diff_zero (data : List Nat) (L : List (Nat × Bool × Nat))
    (b : ScanBest) (hb : b.diff = 0) :
    L.foldl (scanStep data) (some b) = some b := by
  induction L with
  | nil => rfl
  | cons c t ih => rw [List.foldl_cons, scanStep_diff_zero data c b hb, ih]

theorem typicalC_scoreOf {data : List Nat} {c : Nat × Bool × Nat}
    (h : typicalC data c = true) : scoreOf (candPressure data c.1 c.2.1 c.2.2) = 1 := by
  unfold typicalC at h
  unfold scoreOf
  rw [if_pos (of_decide_eq_true h)]

theorem not_typicalC_scoreOf {data : List Nat} {c : Nat × Bool × Nat}
    (h : ¬ typicalC data c = true) : scoreOf (candPressure data c.1 c.2.1 c.2.2) = 1 / 2 := by
  unfold typicalC at h
  unfold scoreOf
  rw [if_neg (fun hh => h (decide_eq_true hh))]

theorem foldl_scanStep_diff_half (data : List Nat) (L : List (Nat × Bool × Nat))
    (b : ScanBest) (hb : b.diff = 1 / 2) :
    L.foldl (scanStep data) (some b) =
      match L.find? (fun c => inRangeC data c && typicalC data c) with
      | some c => some ⟨c, candPressure data c.1 c.2.1 c.2.2, 0⟩
      | none => some b := by
  induction L with
  | nil => rfl
  | cons c t ih =>
    rw [List.foldl_cons, List.find?_cons]
    by_cases hin : inRangeC data c = true
    · by_cases hty : typicalC data c = true
      · have hd : 1 - scoreOf (candPressure data c.1 c.2.1 c.2.2) = 0 := by
          rw [typicalC_scoreOf hty]; norm_num
        have hstep : scanStep data (some b) c =
            some ⟨c, candPressure data c.1 c.2.1 c.2.2, 0⟩ := by
          unfold scanStep
          dsimp only
          unfold inRangeC at hin
          rw [if_pos hin, hd, hb]
          norm_num
        rw [hstep, foldl_scanStep_diff_zero data t _ rfl]
        simp [hin, hty]
      · have hd : 1 - scoreOf (candPressure data c.1 c.2.1 c.2.2) = 1 / 2 := by
          rw [not_typicalC_scoreOf hty]; norm_num
        have hstep : scanStep data (some b) c = some b := by
          unfold scanStep
          dsimp only
          unfold inRangeC at hin
          rw [if_pos hin, hd, hb]
          norm_num
        rw [hstep, ih]
        simp only [Bool.not_eq_true] at hty
        simp [hin, hty]
    · have hstep : scanStep data (some b) c = some b := by
        unfold scanStep
        dsimp only
        unfold inRangeC at hin
        rw [if_neg hin]
      rw [hstep, ih]
      simp only [Bool.not_eq_true] at hin
      simp [hin]

theorem foldl_scanStep_none (data : List Nat) (L : List (Nat × Bool × Nat)) :
    L.foldl (scanStep data) none =
      match L.find? (fun c => inRangeC data c && typicalC data c) with
      | some c => some ⟨c, candPressure data c.1 c.2.1 c.2.2, 0⟩
      | none =>
        match (L.filter (inRangeC data)).head? with
        | some c => some ⟨c, candPressure data c.1 c.2.1 c.2.2, 1 / 2⟩
        | none => none := by
  induction L with
  | nil => rfl
  | cons c t ih =>
    rw [List.foldl_cons, List.find?_cons, List.filter_cons]
    by_cases hin : inRangeC data c = true
    · by_cases hty : typicalC data c = true
      · have hstep : scanStep data none c =
            some ⟨c, candPressure data c.1 c.2.1 c.2.2, 0⟩ := by
          unfold scanStep
          dsimp only
          unfold inRangeC at hin
          rw [if_pos hin, typicalC_scoreOf hty]
          norm_num
        rw [hstep, foldl_scanStep_diff_zero data t _ rfl]
        simp [hin, hty]
      · have hstep : scanStep data none c =
            some ⟨c, candPressure data c.1 c.2.1 c.2.2, 1 / 2⟩ := by
          unfold scanStep
          dsimp only
          unfold inRangeC at hin
          rw [if_pos hin, not_typicalC_scoreOf hty]
          norm_num
        rw [hstep, foldl_scanStep_diff_half data t _ rfl]
        simp only [Bool.not_eq_true] at hty
        simp [hin, hty]
    · have hstep : scanStep data none c = none := by
        unfold scanStep
        dsimp only
        unfold inRangeC at hin
        rw [if_neg hin]
      rw [hstep, ih]
      simp only [Bool.not_eq_true] at hin
      simp [hin]

theorem autoScan_eq_selectSpec (data : List Nat) :
    (autoScan data).map (fun b => (b.config, b.pressure)) =
      (selectSpec data (scanCandidates data)).map
        (fun c => (c, candPressure data c.1 c.2.1 c.2.2)) := by
  rw [autoScan, foldl_scanStep_none, selectSpec, find?_filter_eq]
  have hcomm : (fun c => inRangeC data c && typicalC data c) =
      (fun a => inRangeC data a && typicalC data a) := rfl
  cases hf : (scanCandidates data).find? (fun c => inRangeC data c && typicalC data c) with
  | some c => simp [hf]
  | none =>
    cases hh : ((scanCandidates data).filter (inRangeC data)).head? with
    | some c => simp [hf, hh]
    | none => simp [hf, hh]

theorem scanCandidates_of_len18 {data : List Nat} (h : data.length = 18) :
    scanCandidates data = specCandList := by
  unfold scanCandidates specCandList
  simp only [h]
  rfl

/-! ### Claim theorems -/

set_option maxRecDepth 2000

/-- C1 counterexample: the claim that every decoded advertisement surfaces a
battery in [0, 100] fails on Decoder A: the 16-byte payload whose signed
battery byte is 0xFF decodes (through the full dispatch, company id 256, no
service UUIDs) to an emitted reading with battery −1, which is outside
[0, 100]. -/
theorem C1_battery_counterexample :
    startUpdate "address" []
        [(256, [0, 0, 0, 0, 0, 0, 0, 0, 0, 0, 0, 0, 0, 0, 255, 0])] =
      some ⟨0, 0, -1, some false⟩ ∧
    ¬ (0 ≤ (-1 : ℤ) ∧ (-1 : ℤ) ≤ 100) :=
  ⟨by with_unfolding_all decide, by decide⟩

/-- C1 amended: Decoder B and the TomTom decoder do clamp the emitted battery
into [0, 100], but Decoder A emits the raw signed battery byte unclamped, so
its battery is only guaranteed to lie in the signed-byte range [−128, 127]. -/
theorem C1_battery_amended :
    (∀ (data : List Nat) (cid : Nat) (r : Reading), processTpmsB data cid = some r →
      0 ≤ r.battery ∧ r.battery ≤ 100) ∧
    (∀ (data : List Nat) (r : Reading), processTpmsTomtom data = some r →
      0 ≤ r.battery ∧ r.battery ≤ 100) ∧
    (∀ (data : List Nat) (r : Reading), (∀ b ∈ data, b < 256) →
      processTpmsA data = some r → -128 ≤ r.battery ∧ r.battery ≤ 127) := by
  refine ⟨?_, ?_, ?_⟩
  · intro data cid r h
    unfold processTpmsB at h
    split_ifs at h with hlen
    · simp only [Option.some.injEq] at h
      subst h
      exact ⟨pyRound_nonneg (batteryClamp_nonneg _), pyRound_le_hundred (batteryClamp_le _)⟩
  · intro data r h
    unfold processTpmsTomtom at h
    split_ifs at h with hlen
    · cases hex : tomtomExtract data with
      | some r0 =>
        rw [hex] at h
        simp only [Option.some.injEq] at h
        subst h
        exact tomtomExtract_battery hex
      | none =>
        rw [hex] at h
        simp only [Option.some.injEq] at h
        subst h
        exact ⟨by norm_num [placeholderReading], by norm_num [placeholderReading]⟩
  · intro data r hb h
    unfold processTpmsA at h
    split_ifs at h with hlen
    · simp only [Option.some.injEq] at h
      subst h
      have h14 : data.getD 14 0 ∈ data := by
        have hlt : 14 < data.length := by omega
        rw [List.getD_eq_getElem _ _ hlt]
        exact List.getElem_mem hlt
      exact toSigned8_bounds (hb _ h14)

/-- C1 witness: the amended theorem applied to the concrete Decoder B
payload `[0,0,0,0,0]` with company id 256, whose decoded battery is 0. -/
theorem C1_battery_amended_witness :
    0 ≤ (⟨-1, 0, 0, none⟩ : Reading).battery ∧
      (⟨-1, 0, 0, none⟩ : Reading).battery ≤ 100 :=
  C1_battery_amended.1 [0, 0, 0, 0, 0] 256 ⟨-1, 0, 0, none⟩
    (by with_unfolding_all decide)

/-- The decoder selection outcome described by the spec's classifier. -/
inductive FormatId
  | A
  | B
  | TomTom
  deriving DecidableEq, Repr

/-- Modelled from the spec: classification rules 1-3 in their stated order —
service UUID 27A5 selects B regardless of company identifier; else FBB0
together with company identifier 256 selects TomTom; else company
identifier 256 selects A; else the record is unsupported. -/
def classifySpec (su : List String) (cid : Nat) : Option FormatId :=
  if uuid27a5 ∈ su then some FormatId.B
  else if uuidFbb0 ∈ su ∧ cid = 256 then some FormatId.TomTom
  else if cid = 256 then some FormatId.A
  else none

/-- C2: for every record with non-empty manufacturer data, `_start_update`
dispatches exactly by the spec's first-match classification rules applied to
the first manufacturer entry: rule 1 (27A5 → B, any company id), rule 2
(FBB0 + 256 → TomTom), rule 3 (256 → A), otherwise no reading is emitted. -/
theorem C2_classification_order (addr : String) (su : List String) (cid : Nat)
    (payload : List Nat) (rest : List (Nat × List Nat)) :
    startUpdate addr su ((cid, payload) :: rest) =
      match classifySpec su cid with
      | some FormatId.B => processTpmsB payload cid
      | some FormatId.TomTom => processTpmsTomtom payload
      | some FormatId.A => processTpmsA payload
      | none => none := by
  unfold startUpdate classifySpec
  by_cases h1 : uuid27a5 ∈ su
  · simp [h1]
  · by_cases h2 : cid = 256 <;> by_cases h3 : uuidFbb0 ∈ su <;> simp [h1, h2, h3]

/-- C3 counterexample: a record whose (first) company identifier is 384,
with no service UUIDs, produces no reading at all — there is no Format C
path in the code, so no placeholder reading is emitted for it. -/
theorem C3_formatC_counterexample :
    startUpdate "address" [] [(384, List.replicate 18 0)] = none := by
  with_unfolding_all decide

/-- C3 amended: records whose company identifier lies in {384, 385, 386, 387}
and which match none of classification rules 1-3 are unsupported: dispatch
reaches the error branch and emits no reading; no Format C decoder exists. -/
theorem C3_formatC_amended (addr : String) (su : List String) (cid : Nat)
    (payload : List Nat) (rest : List (Nat × List Nat))
    (hcid : cid ∈ ([384, 385, 386, 387] : List Nat)) (h27 : uuid27a5 ∉ su) :
    startUpdate addr su ((cid, payload) :: rest) = none := by
  have hne : cid ≠ 256 := by
    simp only [List.mem_cons, List.not_mem_nil, or_false] at hcid
    rcases hcid with h | h | h | h <;> omega
  simp only [startUpdate]
  rw [if_neg h27, if_neg (by tauto : ¬ (cid = 256 ∧ uuidFbb0 ∈ su)), if_neg hne]

/-- C3 witness: the amended theorem applied at company id 384 with no
service UUIDs. -/
theorem C3_formatC_amended_witness :
    startUpdate "address" [] [(384, [])] = none :=
  C3_formatC_amended "address" [] 384 [] [] (by decide) (by simp)

/-- C4: Decoder A rejects any payload whose length is not 16 and emits no
reading; every 16-byte payload decodes; the concrete native-endian payload
with pressure_raw 500000, temperature_raw 2500, battery 80, alarm 1 yields
pressure 5.0 bar, temperature 25.0, battery 80, alarm true; a 15-byte
payload yields no reading. -/
theorem C4_decoderA :
    (∀ data : List Nat, data.length ≠ 16 → processTpmsA data = none) ∧
    (∀ data : List Nat, data.length = 16 → (processTpmsA data).isSome = true) ∧
    processTpmsA [0, 0, 0, 0, 0, 0, 32, 161, 7, 0, 196, 9, 0, 0, 80, 1] =
      some ⟨5, 25, 80, some true⟩ ∧
    processTpmsA (List.replicate 15 0) = none := by
  refine ⟨?_, ?_, by with_unfolding_all decide, by with_unfolding_all decide⟩
  · intro data h
    unfold processTpmsA
    rw [if_neg h]
  · intro data h
    unfold processTpmsA
    rw [if_pos h]
    rfl

/-- C4 witness: the length-validation part of the theorem applied to a
1-byte payload. -/
theorem C4_decoderA_witness : processTpmsA [0] = none :=
  C4_decoderA.1 [0] (by decide)

/-- C5: Decoder B rejects any payload other than 5 bytes (10 hex characters)
and emits no reading; otherwise, for a 16-bit company identifier, it emits
temperature = signed first byte, pressure = round((raw − 145)/10 · 0.0689476, 3)
with raw the unsigned integer at hex digits 2..6 (bytes 1..2), battery =
the clamped, banker's-rounded linear map of voltage = (high byte of the
byte-swapped company id hex)/10 from [2.6, 3.3] onto [0, 100], and no
alarm. -/
theorem C5_decoderB :
    (∀ (data : List Nat) (cid : Nat), data.length ≠ 5 → processTpmsB data cid = none) ∧
    (∀ (data : List Nat) (cid : Nat), cid < 65536 → data.length = 5 →
      processTpmsB data cid =
        some ⟨pyRound3 ((((data.getD 1 0 * 256 + data.getD 2 0 : ℕ) : ℚ) - 145) / 10 *
                (689476 / 10000000)),
              (toSigned8 (data.getD 0 0) : ℚ),
              pyRound (max 0 (min 100 ((((cid / 256 : ℕ) : ℚ) / 10 - 26 / 10) /
                (33 / 10 - 26 / 10) * 100))),
              none⟩) := by
  constructor
  · intro data cid h
    unfold processTpmsB
    rw [if_neg (by omega)]
  · intro data cid hc h
    have hswap : compHexSwapByte cid = cid / 256 := by
      unfold compHexSwapByte
      omega
    unfold processTpmsB
    rw [if_pos (by omega), hswap]

/-- C5 witness: the theorem applied to the 5-byte payload `19 09 17 00 00`
with company identifier 0x1E00 = 7680 (voltage 3.0 V). -/
theorem C5_decoderB_witness :
    processTpmsB [25, 9, 23, 0, 0] 7680 =
      some ⟨pyRound3 (((([25, 9, 23, 0, 0].getD 1 0 * 256 +
              [25, 9, 23, 0, 0].getD 2 0 : ℕ) : ℚ) - 145) / 10 * (689476 / 10000000)),
            (toSigned8 ([25, 9, 23, 0, 0].getD 0 0) : ℚ),
            pyRound (max 0 (min 100 ((((7680 / 256 : ℕ) : ℚ) / 10 - 26 / 10) /
              (33 / 10 - 26 / 10) * 100))),
            none⟩ :=
  C5_decoderB.2 [25, 9, 23, 0, 0] 7680 (by omega) (by decide)

/-- C6: for every 18-byte TomTom payload whose sensor id (byte 2 − 0x80 + 1)
has an entry in the fixed table — sensor 1 → (offset 9, big, 140), sensor 2 →
(offset 8, little, 150), sensor 4 → (offset 11, little, 140) — the fixed
configuration is accepted immediately whenever its pressure lies in
[1.5, 7.0], and that candidate's pressure is the one emitted (the auto-scan
result never enters). -/
theorem C6_tomtom_known_config (data : List Nat) (s : Nat) (e : Bool) (d : Nat)
    (h18 : data.length = 18)
    (hcfg : knownConfig ((data.getD 2 0 : ℤ) - 128 + 1) = some (s, e, d))
    (hlo : 3 / 2 ≤ candPressure data s e d) (hhi : candPressure data s e d ≤ 7) :
    knownConfig 1 = some (9, true, 140) ∧
    knownConfig 2 = some (8, false, 150) ∧
    knownConfig 4 = some (11, false, 140) ∧
    (processTpmsTomtom data).map Reading.pressure = some (candPressure data s e d) := by
  refine ⟨by decide, by decide, by decide, ?_⟩
  have h2 : pyIndex data 2 = some (data.getD 2 0) := by
    unfold pyIndex; exact getElem?_of_lt (by omega)
  have h16 : pyIndex data 16 = some (data.getD 16 0) := by
    unfold pyIndex; exact getElem?_of_lt (by omega)
  have h17 : pyIndex data 17 = some (data.getD 17 0) := by
    unfold pyIndex; exact getElem?_of_lt (by omega)
  have hin : inRange (candPressure data s e d) = true := by
    unfold inRange; exact decide_eq_true ⟨hlo, hhi⟩
  have hpres : tomtomPressure data ((data.getD 2 0 : ℤ) - 128 + 1) =
      candPressure data s e d := by
    unfold tomtomPressure
    rw [hcfg]
    dsimp only
    rw [if_pos hin]
  unfold processTpmsTomtom
  rw [if_pos h18]
  unfold tomtomExtract
  rw [h2, h16, h17]
  dsimp only
  rw [hpres]
  rfl

/-- C6 witness: the theorem applied to the concrete 18-byte payload with
byte 2 = 0x80 (sensor 1) and bytes 9-10 = 0x8000 big-endian, whose fixed
candidate decodes to 32768/140/100 ≈ 2.34 bar inside [1.5, 7.0]. -/
theorem C6_tomtom_known_config_witness :
    (processTpmsTomtom [0, 0, 128, 0, 0, 0, 0, 0, 0, 128, 0, 0, 0, 0, 0, 0, 90, 0]).map
        Reading.pressure =
      some (candPressure [0, 0, 128, 0, 0, 0, 0, 0, 0, 128, 0, 0, 0, 0, 0, 0, 90, 0]
        9 true 140) :=
  (C6_tomtom_known_config [0, 0, 128, 0, 0, 0, 0, 0, 0, 128, 0, 0, 0, 0, 0, 0, 90, 0]
    9 true 140 (by decide) (by with_unfolding_all decide)
    (by with_unfolding_all decide) (by with_unfolding_all decide)).2.2.2

/-- C7 counterexample: the auto-scan ranges over offsets 6 through 15, not 6
through 14 as claimed.  On the 18-byte payload with byte 6 = 59, byte 16 =
100 and zeros elsewhere, the only in-range candidate inside the claimed
offsets 6..14 is (offset 6, big, 100) with pressure 944/625 ≈ 1.51 (score
0.5), so the claim predicts that pressure; but the code also sees the
offset-15 little-endian candidate 25600 whose divisor-100 pressure 64/25 =
2.56 scores 1.0 and wins, and indeed emits 64/25 ≠ 944/625. -/
theorem C7_autoscan_counterexample :
    (processTpmsTomtom
        [0, 0, 0, 0, 0, 0, 59, 0, 0, 0, 0, 0, 0, 0, 0, 0, 100, 0]).map
      Reading.pressure = some (64 / 25) ∧
    (selectSpec [0, 0, 0, 0, 0, 0, 59, 0, 0, 0, 0, 0, 0, 0, 0, 0, 100, 0]
        claimedCandList).map
      (fun c => candPressure [0, 0, 0, 0, 0, 0, 59, 0, 0, 0, 0, 0, 0, 0, 0, 0, 100, 0]
        c.1 c.2.1 c.2.2) = some (944 / 625) ∧
    (944 / 625 : ℚ) ≠ 64 / 25 :=
  ⟨by with_unfolding_all decide, by with_unfolding_all decide, by norm_num⟩

/-- C7 amended: for an 18-byte payload the auto-scan visits exactly offsets
6 through 15, big endian before little, divisors 100..150 ascending — 120
candidates; it selects the first candidate achieving the best score (1.0 in
[2, 5], else 0.5) among those in [1.5, 7.0]; and when the scan finds no
in-range candidate (and no fixed-table entry applies), the emitted pressure
is the big-endian 16-bit value at offset 8 divided by 10000. -/
theorem C7_autoscan_amended (data : List Nat) (h18 : data.length = 18) :
    scanCandidates data = specCandList ∧
    specCandList.length = 120 ∧
    (autoScan data).map (fun b => (b.config, b.pressure)) =
      (selectSpec data specCandList).map
        (fun c => (c, candPressure data c.1 c.2.1 c.2.2)) ∧
    (∀ sid : ℤ, knownConfig sid = none → autoScan data = none →
      tomtomPressure data sid = (fromBytesBig (pySlice2 data 8) : ℚ) / 10000) := by
  have hsc := scanCandidates_of_len18 h18
  refine ⟨hsc, by decide, ?_, ?_⟩
  · rw [← hsc]
    exact autoScan_eq_selectSpec data
  · intro sid hk ha
    unfold tomtomPressure
    rw [hk, ha]
    dsimp only
    unfold fallbackPressure
    rw [div_div]
    norm_num

/-- C7 witness: the amended theorem applied to the all-zero 18-byte payload. -/
theorem C7_autoscan_amended_witness :
    (autoScan (List.replicate 18 0)).map (fun b => (b.config, b.pressure)) =
      (selectSpec (List.replicate 18 0) specCandList).map
        (fun c => (c, candPressure (List.replicate 18 0) c.1 c.2.1 c.2.2)) :=
  (C7_autoscan_amended (List.replicate 18 0) (by decide)).2.2.1

/-- C8: `supported` answers true exactly when rule 1, 2 or 3 would match —
27A5 present, or FBB0 present together with a manufacturer entry for
company 256, or a manufacturer entry for company 256 present — and in
particular answers false for a record whose company identifiers all lie in
{384, 385, 386, 387} with neither triggering UUID. -/
theorem C8_supported_iff :
    (∀ (su : List String) (md : List (Nat × List Nat)),
      supported su md = true ↔
        (uuid27a5 ∈ su ∨ (uuidFbb0 ∈ su ∧ 256 ∈ md.map Prod.fst) ∨
          256 ∈ md.map Prod.fst)) ∧
    (∀ (su : List String) (md : List (Nat × List Nat)),
      uuid27a5 ∉ su →
      (∀ k ∈ md.map Prod.fst, k ∈ ([384, 385, 386, 387] : List Nat)) →
      supported su md = false) := by
  have hne : ∀ (md : List (Nat × List Nat)), 256 ∈ md.map Prod.fst → md ≠ [] := by
    intro md h hemp
    subst hemp
    simp at h
  constructor
  · intro su md
    unfold supported
    constructor
    · intro h
      split_ifs at h with h1 h2 h3
      · exact Or.inr (Or.inl ⟨h1.1, h1.2.2⟩)
      · exact Or.inl h2
      · exact Or.inr (Or.inr h3.2)
    · intro h
      split_ifs with h1 h2 h3
      · rfl
      · rfl
      · rfl
      · exfalso
        rcases h with h | ⟨hf, hm⟩ | hm
        · exact h2 h
        · exact h1 ⟨hf, hne md hm, hm⟩
        · exact h3 ⟨hne md hm, hm⟩
  · intro su md h27 hk
    have hM : 256 ∉ md.map Prod.fst := by
      intro hm
      have hmem := hk _ hm
      simp at hmem
    unfold supported
    rw [if_neg (fun hc => hM hc.2.2), if_neg h27, if_neg (fun hc => hM hc.2)]

/-- C8 witness: the Format-C part of the theorem applied to a record with
the single company identifier 384 and no service UUIDs. -/
theorem C8_supported_iff_witness : supported [] [(384, [])] = false :=
  C8_supported_iff.2 [] [(384, [])] (by simp) (by decide)

/-- C9: decoding is a pure function of the record — two runs on the same
record give the same reading — and it consumes only the first
manufacturer-data entry: records agreeing on address, service UUIDs and
first entry decode identically whatever the later entries are. -/
theorem C9_deterministic_first_entry (addr : String) (su : List String)
    (entry : Nat × List Nat) (rest1 rest2 : List (Nat × List Nat)) :
    startUpdate addr su (entry :: rest1) = startUpdate addr su (entry :: rest1) ∧
    startUpdate addr su (entry :: rest1) = startUpdate addr su (entry :: rest2) := by
  obtain ⟨cid, payload⟩ := entry
  exact ⟨rfl, rfl⟩

/-- C10: on any 18-byte payload the TomTom extraction body cannot raise —
every read is in bounds, so the `except` placeholder branch is unreachable
and the emitted reading is genuinely decoded: pressure from the heuristic
resolver, temperature = little-endian 16-bit at offset 12 over 100, battery
= byte 16 capped at 100, alarm = byte 17 nonzero. -/
theorem C10_tomtom_no_exception (data : List Nat) (h18 : data.length = 18) :
    tomtomExtract data =
      some ⟨tomtomPressure data ((data.getD 2 0 : ℤ) - 128 + 1),
            (fromBytesLittle (pySlice2 data 12) : ℚ) / 100,
            if data.getD 16 0 ≤ 100 then (data.getD 16 0 : ℤ) else 100,
            some (data.getD 17 0 != 0)⟩ ∧
    processTpmsTomtom data =
      some ⟨tomtomPressure data ((data.getD 2 0 : ℤ) - 128 + 1),
            (fromBytesLittle (pySlice2 data 12) : ℚ) / 100,
            if data.getD 16 0 ≤ 100 then (data.getD 16 0 : ℤ) else 100,
            some (data.getD 17 0 != 0)⟩ := by
  have h2 : pyIndex data 2 = some (data.getD 2 0) := by
    unfold pyIndex; exact getElem?_of_lt (by omega)
  have h16 : pyIndex data 16 = some (data.getD 16 0) := by
    unfold pyIndex; exact getElem?_of_lt (by omega)
  have h17 : pyIndex data 17 = some (data.getD 17 0) := by
    unfold pyIndex; exact getElem?_of_lt (by omega)
  have hex : tomtomExtract data =
      some ⟨tomtomPressure data ((data.getD 2 0 : ℤ) - 128 + 1),
            (fromBytesLittle (pySlice2 data 12) : ℚ) / 100,
            if data.getD 16 0 ≤ 100 then (data.getD 16 0 : ℤ) else 100,
            some (data.getD 17 0 != 0)⟩ := by
    unfold tomtomExtract
    rw [h2, h16, h17]
  refine ⟨hex, ?_⟩
  unfold processTpmsTomtom
  rw [if_pos h18, hex]

/-- C10 witness: the theorem applied to an 18-byte payload with battery byte
200 (capped to 100) and alarm byte 1. -/
theorem C10_tomtom_no_exception_witness :
    processTpmsTomtom [0, 0, 0, 0, 0, 0, 0, 0, 0, 0, 0, 0, 0, 0, 0, 0, 200, 1] =
      some ⟨tomtomPressure [0, 0, 0, 0, 0, 0, 0, 0, 0, 0, 0, 0, 0, 0, 0, 0, 200, 1]
              (([0, 0, 0, 0, 0, 0, 0, 0, 0, 0, 0, 0, 0, 0, 0, 0, 200, 1].getD 2 0 : ℤ)
                - 128 + 1),
            (fromBytesLittle (pySlice2
              [0, 0, 0, 0, 0, 0, 0, 0, 0, 0, 0, 0, 0, 0, 0, 0, 200, 1] 12) : ℚ) / 100,
            if [0, 0, 0, 0, 0, 0, 0, 0, 0, 0, 0, 0, 0, 0, 0, 0, 200, 1].getD 16 0 ≤ 100
              then ([0, 0, 0, 0, 0, 0, 0, 0, 0, 0, 0, 0, 0, 0, 0, 0, 200, 1].getD 16 0 : ℤ)
              else 100,
            some ([0, 0, 0, 0, 0, 0, 0, 0, 0, 0, 0, 0, 0, 0, 0, 0, 200, 1].getD 17 0 != 0)⟩ :=
  (C10_tomtom_no_exception [0, 0, 0, 0, 0, 0, 0, 0, 0, 0, 0, 0, 0, 0, 0, 0, 200, 1]
    (by decide)).2

end TPMS
